import Mathlib

/-!
# Verification of the download-badge service core

A shallow embedding, in Lean 4, of the core logic of the download-counter
service (Flask app `app.py`, persistence helpers `database.py`, and the
SVG renderer `svg_generator.py`), together with theorems settling the
frozen claims about its specification.

Modelling conventions:

* Python ISO-8601 timestamp strings are modelled as natural numbers
  (seconds since an epoch); string comparison of ISO timestamps and
  chronological comparison agree, so `ORDER BY timestamp` and datetime
  arithmetic become arithmetic on `ℕ`/`ℤ`.  `datetime.date()` becomes
  `dateOf t = t / 86400` (the timestamp's own day number, no timezone
  conversion, matching the source).
* Python float arithmetic in the renderer is modelled by exact rationals
  (`ℚ`); decimal formatting (`:.1f`, `:.2f`) is modelled by rounding the
  exact rational (Python rounds the nearest double half-to-even; the two
  agree away from representation-level ties, and no theorem below depends
  on a tie).
* The per-plugin SQLite tables become per-plugin Lean lists: the
  `downloads` table for one plugin is a `List Sample` in insertion order
  (insertions timestamp with `datetime.now()`, so insertion order is
  timestamp order), and the `scrape_logs` table for one plugin is handed
  to `should_retry_scrape` already sorted most-recent-first, which is what
  its `ORDER BY timestamp DESC` queries return.
* Python's dynamic typing at the one call site where it matters
  (`app.py` passes a bare list of ints where `generate_sparkline` expects
  a list of dicts) is modelled by the sum-like type `HistItem`; accessing
  `record['timestamp']` on a bare int raises `TypeError`, modelled by
  `Except`.  Exceptions generally are modelled by the `Except PyExc`
  monad, and each endpoint's `try/except` wrapper by a `match` on it.
-/

/-- One row of the `downloads` table for a fixed plugin: an observation
`(timestamp, count)`.  Timestamps are seconds since an epoch. -/
structure Sample where
  timestamp : Nat
  count : Int
deriving DecidableEq, Inhabited

/-- Day number of a timestamp: models `datetime.fromisoformat(ts).date()`,
using the timestamp's own date component (86400 seconds per day). -/
def dateOf (t : Nat) : Nat := t / 86400

/-- Python exceptions relevant to the embedded code. -/
inductive PyExc where
  | typeError (msg : String)
  | attributeError (msg : String)
  | scraperError (msg : String)
deriving DecidableEq

/-- A value appearing in the list handed to `generate_sparkline`: either a
proper row dict with `timestamp` and `count` keys, or a bare integer (which
is what `sparkline_endpoint` actually passes). -/
inductive HistItem where
  | record (timestamp : Nat) (count : Int)
  | intVal (count : Int)
deriving DecidableEq

/-- Models the subscript accesses `record['timestamp']` / `record['count']`
at the top of the daily-reduction loop: on a bare int they raise
`TypeError: 'int' object is not subscriptable`. -/
def toRecord : HistItem → Except PyExc Sample
  | .record t c => .ok ⟨t, c⟩
  | .intVal _ => .error (.typeError "int object is not subscriptable")

/-- A proper row dict as handed to `generate_sparkline` by a well-behaved
caller (the shape its docstring documents). -/
def sampleToItem (s : Sample) : HistItem := .record s.timestamp s.count

/- Configuration constants from `config.py` (default values of the
environment-overridable settings). -/

/-- `config.THROTTLE_HOURS` default. -/
def THROTTLE_HOURS : Nat := 24

/-- `config.DEFAULT_SPARKLINE_DAYS`. -/
def DEFAULT_SPARKLINE_DAYS : Int := 30

/-- `config.SPARKLINE_WIDTH`. -/
def SPARKLINE_WIDTH : Int := 200

/-- `config.SPARKLINE_HEIGHT`. -/
def SPARKLINE_HEIGHT : Int := 50

/-- `config.SPARKLINE_COLOR`. -/
def SPARKLINE_COLOR : String := "#007ec6"

/-- Models the Python idiom `width or config.SPARKLINE_WIDTH` used for the
renderer's dimension parameters: `None` and the falsy int `0` both fall
back to the configured default. -/
def resolveDim (param : Option Int) (dflt : Int) : Int :=
  match param with
  | none => dflt
  | some w => if w = 0 then dflt else w

/-- Models `color or config.SPARKLINE_COLOR` (the empty string is falsy). -/
def resolveColor (param : Option String) (dflt : String) : String :=
  match param with
  | none => dflt
  | some c => if c = "" then dflt else c

/-- Opening tag of the `generate_empty_sparkline` template, carrying the
declared width and height. -/
def empty_svg_header (w h : Int) : String :=
  "<svg width=\"" ++ toString w ++ "\" height=\"" ++ toString h ++
    "\" xmlns=\"http://www.w3.org/2000/svg\">"

/-- Remainder of the `generate_empty_sparkline` template: the centered
"No data" caption and the closing tag. -/
def EMPTY_SVG_BODY : String :=
  "\n    <text x=\"50%\" y=\"50%\" text-anchor=\"middle\" dominant-baseline=\"middle\"\n          font-family=\"Verdana,sans-serif\" font-size=\"12\" fill=\"#999\">No data</text>\n</svg>"

/-- `svg_generator.generate_empty_sparkline(width=None, height=None)`. -/
def generate_empty_sparkline (width height : Option Int) : String :=
  empty_svg_header (resolveDim width SPARKLINE_WIDTH) (resolveDim height SPARKLINE_HEIGHT) ++
    EMPTY_SVG_BODY

/-- One-decimal formatting of an exact rational, modelling Python's
`f"{x:.1f}"` (see the module comment on float modelling). -/
def formatOneDecimal (q : ℚ) : String :=
  let n : Int := round (q * 10)
  (if n < 0 then "-" else "") ++ toString (n.natAbs / 10) ++ "." ++ toString (n.natAbs % 10)

/-- `svg_generator.format_number`. -/
def format_number (num : Int) : String :=
  if num ≥ 1000000 then formatOneDecimal ((num : ℚ) / 1000000) ++ "M"
  else if num ≥ 1000 then formatOneDecimal ((num : ℚ) / 1000) ++ "k"
  else toString num

/-- The y-coordinate helper `value_to_y` defined inside
`generate_sparkline`: 10% vertical padding, inverted axis, with the
flat-series special case mapping to `height / 2`. -/
def value_to_y (height minVal maxVal value : ℚ) : ℚ :=
  if maxVal = minVal then height / 2
  else
    let padding := height * 0.1
    let usable_height := height - 2 * padding
    let normalized := (value - minVal) / (maxVal - minVal)
    height - padding - normalized * usable_height

/-- The x-coordinate helper `date_to_x` defined inside
`generate_sparkline`: days from the start over the date range, with the
zero-range special case mapping to `width / 2`. -/
def date_to_x (width : ℚ) (minDate : Nat) (dateRangeDays : Int) (date : Nat) : ℚ :=
  if dateRangeDays = 0 then width / 2
  else ((((date : Int) - (minDate : Int) : Int) : ℚ) / (dateRangeDays : ℚ)) * width

/-- Mutable state of `generate_sparkline`'s segment-building loop:
`solid_segments`, `dotted_segments`, `all_points`, `current_solid_segment`. -/
structure SegState where
  solids : List (List (ℚ × ℚ))
  dotted : List (List (ℚ × ℚ))
  allPts : List (ℚ × ℚ)
  cur : List (ℚ × ℚ)
deriving DecidableEq

/-- One iteration of the segment-building loop for `i ≥ 1`: `prev` is
`daily_data[i-1]`, `p` is `daily_data[i]`. -/
def segStep (toX : Nat → ℚ) (toY : Int → ℚ) (prev p : Nat × Int) (st : SegState) : SegState :=
  let x := toX p.1
  let y := toY p.2
  let gap : Int := (p.1 : Int) - (prev.1 : Int)
  if gap > 1 then
    let prevX := toX prev.1
    let prevY := toY prev.2
    let solids' := if st.cur.isEmpty then st.solids else st.solids ++ [st.cur]
    let step := (x, prevY)
    { solids := solids'
      dotted := st.dotted ++ [[(prevX, prevY), step]]
      allPts := st.allPts ++ [step, (x, y)]
      cur := [(x, y)] }
  else
    { st with cur := st.cur ++ [(x, y)], allPts := st.allPts ++ [(x, y)] }

/-- The segment-building loop from index 1 on, threading the previous
daily point. -/
def segLoop (toX : Nat → ℚ) (toY : Int → ℚ) (prev : Nat × Int) :
    List (Nat × Int) → SegState → SegState
  | [], st => st
  | p :: ps, st => segLoop toX toY p ps (segStep toX toY prev p st)

/-- The whole segment-building phase of `generate_sparkline` (source
lines 74–120): from the reduced daily series, produce
`(solid_segments, dotted_segments, all_points)`, the final solid segment
flushed. -/
def build_segments (toX : Nat → ℚ) (toY : Int → ℚ) :
    List (Nat × Int) → List (List (ℚ × ℚ)) × List (List (ℚ × ℚ)) × List (ℚ × ℚ)
  | [] => ([], [], [])
  | p0 :: rest =>
    let pt0 := (toX p0.1, toY p0.2)
    let stF := segLoop toX toY p0 rest ⟨[], [], [pt0], [pt0]⟩
    (if stF.cur.isEmpty then stF.solids else stF.solids ++ [stF.cur], stF.dotted, stF.allPts)

/-- The daily-reduction loop of `generate_sparkline` (source lines
31–44), on the dynamically typed input list: `daily` is `daily_data`,
`prevDate` is `prev_date`; a bare int raises `TypeError` at
`record['timestamp']`. -/
def reduce_daily_go (daily : List (Nat × Int)) (prevDate : Option Nat) :
    List HistItem → Except PyExc (List (Nat × Int))
  | [] => .ok daily
  | item :: rest =>
    match toRecord item with
    | .error e => .error e
    | .ok s =>
      let d := dateOf s.timestamp
      if prevDate = some d then reduce_daily_go (daily.dropLast ++ [(d, s.count)]) prevDate rest
      else reduce_daily_go (daily ++ [(d, s.count)]) (some d) rest

/-- The daily reduction, started on empty accumulators. -/
def reduce_daily (history : List HistItem) : Except PyExc (List (Nat × Int)) :=
  reduce_daily_go [] none history

/-- The daily-reduction loop specialized to well-typed rows (the
`TypeError` branch unreachable); related to `reduce_daily_go` by
`reduce_daily_records_eq`. -/
def reduce_daily_records_go (daily : List (Nat × Int)) (prevDate : Option Nat) :
    List Sample → List (Nat × Int)
  | [] => daily
  | s :: rest =>
    let d := dateOf s.timestamp
    if prevDate = some d then reduce_daily_records_go (daily.dropLast ++ [(d, s.count)]) prevDate rest
    else reduce_daily_records_go (daily ++ [(d, s.count)]) (some d) rest

/-- The daily reduction on well-typed rows. -/
def reduce_daily_records (samples : List Sample) : List (Nat × Int) :=
  reduce_daily_records_go [] none samples

/-- Two-decimal coordinate formatting, modelling Python's `f"{x:.2f}"`
(see the module comment on float modelling). -/
def fmt2 (q : ℚ) : String :=
  let n : Int := round (q * 100)
  (if n < 0 then "-" else "") ++ toString (n.natAbs / 100) ++ "." ++
    (if n.natAbs % 100 < 10 then "0" ++ toString (n.natAbs % 100) else toString (n.natAbs % 100))

/-- The `' '.join(f'{x:.2f},{y:.2f}' ...)` point-list strings. -/
def points_str (seg : List (ℚ × ℚ)) : String :=
  String.intercalate " " (seg.map (fun p => fmt2 p.1 ++ "," ++ fmt2 p.2))

/-- A solid polyline element (source lines 125–130). -/
def polyline_solid (color : String) (seg : List (ℚ × ℚ)) : String :=
  "<polyline points=\"" ++ points_str seg ++ "\" fill=\"none\" stroke=\"" ++ color ++
    "\" stroke-width=\"2\" stroke-linecap=\"round\" stroke-linejoin=\"round\" />"

/-- A dashed polyline element for a held-value bridge (source lines
132–138): same as the solid one plus `stroke-dasharray="4,4"`. -/
def polyline_dotted (color : String) (seg : List (ℚ × ℚ)) : String :=
  "<polyline points=\"" ++ points_str seg ++ "\" fill=\"none\" stroke=\"" ++ color ++
    "\" stroke-width=\"2\" stroke-dasharray=\"4,4\" stroke-linecap=\"round\" stroke-linejoin=\"round\" />"

/-- The final SVG document template of `generate_sparkline` (gradient
defs, filled area polygon, polylines). -/
def svg_document (w h : Int) (color : String) (area_path : String) (polylines_str : String) : String :=
  "<svg width=\"" ++ toString w ++ "\" height=\"" ++ toString h ++
    "\" xmlns=\"http://www.w3.org/2000/svg\">\n    <defs>\n        <linearGradient id=\"gradient\" x1=\"0%\" y1=\"0%\" x2=\"0%\" y2=\"100%\">\n            <stop offset=\"0%\" style=\"stop-color:" ++
    color ++ ";stop-opacity:0.3\" />\n            <stop offset=\"100%\" style=\"stop-color:" ++
    color ++ ";stop-opacity:0.05\" />\n        </linearGradient>\n    </defs>\n    <polygon points=\"" ++
    area_path ++ "\" fill=\"url(#gradient)\" />\n    " ++ polylines_str ++ "\n</svg>"

/-- `svg_generator.generate_sparkline(history, width, height, color)`, on
the dynamically typed `history` list. -/
def generate_sparkline (history : List HistItem) (width height : Option Int)
    (color : Option String) : Except PyExc String :=
  if history.isEmpty then .ok (generate_empty_sparkline width height)
  else
    let w := resolveDim width SPARKLINE_WIDTH
    let h := resolveDim height SPARKLINE_HEIGHT
    let c := resolveColor color SPARKLINE_COLOR
    match reduce_daily history with
    | .error e => .error e
    | .ok daily =>
      match daily with
      | [] => .ok (generate_empty_sparkline width height)
      | d0 :: drest =>
        let min_val := (drest.map Prod.snd).foldl min d0.2
        let max_val := (drest.map Prod.snd).foldl max d0.2
        let min_date := d0.1
        let max_date := (drest.getLastD d0).1
        let date_range_days : Int := (max_date : Int) - (min_date : Int)
        let toX := date_to_x (w : ℚ) min_date date_range_days
        let toY := fun v : Int => value_to_y (h : ℚ) (min_val : ℚ) (max_val : ℚ) (v : ℚ)
        let segs := build_segments toX toY (d0 :: drest)
        let polylines := segs.1.map (polyline_solid c) ++ segs.2.1.map (polyline_dotted c)
        let area_points := ((0 : ℚ), (h : ℚ)) :: (segs.2.2 ++ [((w : ℚ), (h : ℚ))])
        let area_path := points_str area_points
        let polylines_str := String.intercalate "\n    " polylines
        .ok (svg_document w h c area_path polylines_str)

/-- A rendered HTTP response. -/
structure HttpResponse where
  status : Nat
  mimetype : String
  body : String
deriving DecidableEq

/-- `database.get_download_history(plugin_id, days)` for one plugin's
store: rows with `timestamp >= now - days` (the store is kept in
insertion order, which is ascending timestamp order, so the query's
`ORDER BY timestamp ASC` is the identity on it). -/
def get_download_history (store : List Sample) (now : Nat) (days : Int) : List Sample :=
  let cutoff : Int := (now : Int) - days * 86400
  store.filter (fun s => cutoff ≤ (s.timestamp : Int))

/-- `app.sparkline_endpoint`: clamp `days`, read the history, and render.
The non-empty branch passes the bare counts list
`[record['count'] for record in history]` to `generate_sparkline`; the
`except` wrapper turns any exception into a 500 with the placeholder
image. -/
def sparkline_endpoint (store : List Sample) (now : Nat) (daysArg : Option Int) : HttpResponse :=
  let days := daysArg.getD DEFAULT_SPARKLINE_DAYS
  let days := max 1 (min days 365)
  let history := get_download_history store now days
  if history.isEmpty then
    { status := 200, mimetype := "image/svg+xml", body := generate_empty_sparkline none none }
  else
    let counts := history.map (fun r => HistItem.intVal r.count)
    match generate_sparkline counts none none none with
    | .ok svg => { status := 200, mimetype := "image/svg+xml", body := svg }
    | .error _ => { status := 500, mimetype := "image/svg+xml", body := generate_empty_sparkline none none }

/-- `database.get_last_fetched`: the greatest timestamp in the plugin's
`downloads` rows (`ORDER BY timestamp DESC LIMIT 1`), `none` when there
are no rows. -/
def get_last_fetched (store : List Sample) : Option Nat :=
  match store with
  | [] => none
  | s :: rest => some ((rest.map Sample.timestamp).foldl max s.timestamp)

/-- `database.can_update`: true when no row exists or the most recent row
is at least `throttleHours` old (`datetime.now() - last >= timedelta(hours=throttleHours)`). -/
def can_update (store : List Sample) (now : Nat) (throttleHours : Nat) : Bool :=
  match get_last_fetched store with
  | none => true
  | some t => decide ((throttleHours : Int) * 3600 ≤ (now : Int) - (t : Int))

/-- `database.add_download_record`: a single `INSERT` appending one row. -/
def add_download_record (store : List Sample) (timestamp : Nat) (count : Int) : List Sample :=
  store ++ [⟨timestamp, count⟩]

/-- Outcome of `scraper.fetch_download_count` (an opaque external
fetcher: an integer, or a `ScraperError`). -/
inductive FetchResult where
  | fetched (count : Int)
  | failed (msg : String)
deriving DecidableEq

/-- JSON body of an `/update/{pluginId}` response. -/
inductive UpdateBody where
  | ok (plugin_id : String) (count : Int) (timestamp : Nat)
  | err (error message : String)
  | throttled (error message : String) (last_fetched : Option Nat)
deriving DecidableEq

/-- The names `database.py` actually defines at module level. -/
def databaseModuleDefs : List String :=
  ["get_db", "init_database", "add_plugin_if_not_exists", "add_download_record",
   "get_latest_download_count", "get_last_fetched", "can_update", "is_stale",
   "get_download_history", "get_plugin_info", "log_scrape_success", "log_scrape_error",
   "has_successful_scrape", "should_retry_scrape"]

/-- Attribute lookup `database.<name>`: raises `AttributeError` for a
name the module does not define. -/
def getattr_database (name : String) : Except PyExc Unit :=
  if name ∈ databaseModuleDefs then .ok ()
  else .error (.attributeError ("module database has no attribute " ++ name))

/-- `str(e)` of an exception. -/
def pyExcMessage : PyExc → String
  | .typeError m => m
  | .attributeError m => m
  | .scraperError m => m

/-- The `try` block of `app.update_endpoint` after the throttle check
passed: the source's call `database.add_or_update_plugin(...)` is an
attribute lookup on `database.py`, which raises `AttributeError` before
the fetch; the lines after it mirror the source (fetch, then persist one
record with the response's timestamp). -/
def update_endpoint_try (pluginId : String) (store : List Sample) (now : Nat)
    (fetch : FetchResult) : Except PyExc (UpdateBody × List Sample) := do
  let _ ← getattr_database "add_or_update_plugin"
  let count ← match fetch with
    | .fetched c => Except.ok c
    | .failed m => Except.error (PyExc.scraperError m)
  let timestamp := now
  let store' := add_download_record store timestamp count
  Except.ok (UpdateBody.ok pluginId count timestamp, store')

/-- `app.update_endpoint`: throttle check (429), then the `try` block with
its two `except` arms (`ScraperError` → 500 "Scraper error", anything
else → 500 "Internal server error"). Returns the response with the
plugin's store after the request. -/
def update_endpoint (pluginId : String) (store : List Sample) (now : Nat)
    (fetch : FetchResult) : (Nat × UpdateBody) × List Sample :=
  if can_update store now THROTTLE_HOURS then
    match update_endpoint_try pluginId store now fetch with
    | .ok (b, s') => ((200, b), s')
    | .error (.scraperError m) => ((500, .err "Scraper error" m), store)
    | .error e => ((500, .err "Internal server error" (pyExcMessage e)), store)
  else
    ((429, .throttled "Too many requests" "throttled" (get_last_fetched store)), store)

/-- One row of the `scrape_logs` table for a fixed plugin. -/
structure LogEntry where
  timestamp : Nat
  success : Bool
deriving DecidableEq

/-- The consecutive-failure counting loop of `should_retry_scrape`:
count from the front, stop at the first success. -/
def consecutive_failures : List LogEntry → Nat
  | [] => 0
  | e :: rest => if e.success then 0 else consecutive_failures rest + 1

/-- `database.should_retry_scrape` for one plugin's log, handed
most-recent-first (as its `ORDER BY timestamp DESC` queries return):
no log → retry; last success → retry; last failure younger than 24h →
wait; otherwise give up iff the 10 most recent entries begin with 3 or
more consecutive failures. -/
def should_retry_scrape (log : List LogEntry) (now : Nat) : Bool :=
  match log with
  | [] => true
  | last :: _ =>
    if last.success then true
    else if (now : Int) - (last.timestamp : Int) < 24 * 3600 then false
    else decide (consecutive_failures (log.take 10) < 3)

/-- Consecutive pairs of a list: `l.zip l.tail`. -/
def consecPairs {α : Type} (l : List α) : List (α × α) := l.zip l.tail

/-- Splitting a daily series into maximal runs whose day-to-day gap never
exceeds 1: the loop body, carrying the previous point and the current
run. -/
def splitRunsGo (prev : Nat × Int) (run : List (Nat × Int)) :
    List (Nat × Int) → List (List (Nat × Int))
  | [] => [run]
  | p :: ps =>
    if (p.1 : Int) - (prev.1 : Int) > 1 then run :: splitRunsGo p [p] ps
    else splitRunsGo p (run ++ [p]) ps

/-- Maximal solid runs of a daily series, as the spec describes them:
split exactly at the consecutive pairs whose date gap exceeds one day. -/
def splitRuns : List (Nat × Int) → List (List (Nat × Int))
  | [] => []
  | p :: ps => splitRunsGo p [p] ps

/-- C8: the badge formatter uses the 1e6 threshold for an "M" suffix with
one decimal, the 1e3 threshold for a "k" suffix with one decimal, and the
plain decimal string below that; in particular `format(999) = "999"`,
`format(1000) = "1.0k"` and `format(1500000) = "1.5M"`. -/
theorem format_number_suffix_rule :
    format_number 999 = "999" ∧ format_number 1000 = "1.0k" ∧ format_number 1500000 = "1.5M" ∧
    (∀ num : Int, 1000000 ≤ num →
      format_number num = formatOneDecimal ((num : ℚ) / 1000000) ++ "M") ∧
    (∀ num : Int, 1000 ≤ num → num < 1000000 →
      format_number num = formatOneDecimal ((num : ℚ) / 1000) ++ "k") ∧
    (∀ num : Int, num < 1000 → format_number num = toString num) := by
  refine ⟨?_, ?_, ?_, ?_, ?_, ?_⟩
  · rw [format_number]; norm_num; decide
  · have h : round ((1 : ℚ) * 10) = (10 : Int) := by norm_num [round_eq]
    rw [format_number]; norm_num
    simp only [formatOneDecimal, h]; decide
  · have h : round ((3 / 2 : ℚ) * 10) = (15 : Int) := by norm_num [round_eq]
    rw [format_number]; norm_num
    simp only [formatOneDecimal, h]; decide
  · intro num h; rw [format_number, if_pos h]
  · intro num h1 h2; rw [format_number, if_neg (by omega), if_pos h1]
  · intro num h; rw [format_number, if_neg (by omega), if_neg (by omega)]

/-- C10: the "k" branch is not bounded below 1000.0: at 999999 (which is
below the 1e6 threshold) the formatter rounds 999.999 up and returns
"1000.0k", not an "M"-suffixed string. -/
theorem format_number_k_branch_reaches_1000 :
    format_number 999999 = "1000.0k" ∧ (999999 : Int) < 1000000 ∧
    ∀ s : String, format_number 999999 ≠ s ++ "M" := by
  have hk : format_number 999999 = "1000.0k" := by
    have h : round ((999999 : ℚ) / 1000 * 10) = (10000 : Int) := by norm_num [round_eq]
    rw [format_number]; norm_num
    simp only [formatOneDecimal, h]; decide
  refine ⟨hk, by norm_num, ?_⟩
  intro s h
  rw [hk] at h
  have h2 : ("1000.0k" : String).data = s.data ++ ("M" : String).data := by
    rw [h, String.data_append]
  have h3 := congrArg List.getLast? h2
  simp [List.getLast?_concat] at h3

set_option maxRecDepth 4096 in
/-- C9 (amended): rendering an empty series yields the non-empty,
well-formed placeholder SVG consisting of the header declaring the
resolved width and height followed by the centered "No data" caption;
the resolved dimension is the requested one whenever it is provided and
non-zero, and the configured default when it is absent — but a requested
dimension of `0` also falls back to the default (Python's falsy `or`),
which is the one deviation from the claim as stated. -/
theorem generate_empty_sparkline_placeholder (w h : Option Int) :
    generate_empty_sparkline w h ≠ "" ∧
    generate_empty_sparkline w h =
      empty_svg_header (resolveDim w SPARKLINE_WIDTH) (resolveDim h SPARKLINE_HEIGHT) ++
        EMPTY_SVG_BODY ∧
    (∃ a b : String, EMPTY_SVG_BODY = a ++ "No data" ++ b) ∧
    resolveDim none SPARKLINE_WIDTH = SPARKLINE_WIDTH ∧
    resolveDim none SPARKLINE_HEIGHT = SPARKLINE_HEIGHT ∧
    (∀ n : Int, n ≠ 0 → resolveDim (some n) SPARKLINE_WIDTH = n) ∧
    (∀ n : Int, n ≠ 0 → resolveDim (some n) SPARKLINE_HEIGHT = n) := by
  refine ⟨?_, rfl, ?_, rfl, rfl, ?_, ?_⟩
  · intro he
    have hlen := congrArg String.length he
    rw [generate_empty_sparkline, String.length_append] at hlen
    have hb : EMPTY_SVG_BODY.length = 166 := by decide
    simp [hb] at hlen
  · exact ⟨"\n    <text x=\"50%\" y=\"50%\" text-anchor=\"middle\" dominant-baseline=\"middle\"\n          font-family=\"Verdana,sans-serif\" font-size=\"12\" fill=\"#999\">",
      "</text>\n</svg>", by decide⟩
  · intro n hn; simp [resolveDim, hn]
  · intro n hn; simp [resolveDim, hn]

set_option maxRecDepth 4096 in
/-- C9 counterexample: at a requested width of `0` (with height 50) the
placeholder is not rendered at the requested width — the output declares
the default width 200 instead, because `width or config.SPARKLINE_WIDTH`
treats `0` as falsy. -/
theorem generate_empty_sparkline_requested_zero_counterexample :
    generate_empty_sparkline (some 0) (some 50) ≠ empty_svg_header 0 50 ++ EMPTY_SVG_BODY ∧
    generate_empty_sparkline (some 0) (some 50) = empty_svg_header 200 50 ++ EMPTY_SVG_BODY := by
  constructor
  · decide
  · rfl

/-- C1 (code bug): with a non-empty stored history in the window (one
sample at timestamp 0, queried at `now = 86400` with the default 30-day
window), the sparkline endpoint does not return 200 with a rendered
sparkline: `sparkline_endpoint` hands `generate_sparkline` the bare
counts list, `record['timestamp']` raises `TypeError`, and the `except`
arm returns HTTP 500 with the "No data" placeholder body instead. -/
theorem sparkline_endpoint_nonempty_history_bug :
    sparkline_endpoint [⟨0, 5⟩] 86400 none =
      { status := 500, mimetype := "image/svg+xml", body := generate_empty_sparkline none none } ∧
    generate_empty_sparkline none none = empty_svg_header 200 50 ++ EMPTY_SVG_BODY :=
  ⟨rfl, rfl⟩

/-- C2 (code bug): a POST `/update/118` that passes the throttle check
(empty store) and whose external fetch would succeed with count 42 does
not return 200 and persists nothing: the call
`database.add_or_update_plugin(...)` raises `AttributeError` (no such
function exists in `database.py`), the generic `except` arm answers
HTTP 500 `{error: "Internal server error", message}`, and the store is
unchanged. -/
theorem update_endpoint_missing_function_bug :
    update_endpoint "118" [] 0 (.fetched 42) =
      ((500, UpdateBody.err "Internal server error"
        "module database has no attribute add_or_update_plugin"), []) :=
  rfl

/-- The consecutive-failure counting loop counts the length of the
initial all-failure run. -/
theorem consecutive_failures_eq_takeWhile (l : List LogEntry) :
    consecutive_failures l = (l.takeWhile (fun e => !e.success)).length := by
  induction l with
  | nil => rfl
  | cons e rest ih =>
    by_cases hs : e.success = true
    · simp [consecutive_failures, List.takeWhile, hs]
    · simp only [Bool.not_eq_true] at hs
      simp [consecutive_failures, List.takeWhile, hs, ih]

/-- C5: `should_retry_scrape` (on the plugin's log, most recent first)
returns true iff the log is empty, or the most recent attempt succeeded,
or the most recent attempt failed at least 24 hours ago and the run of
consecutive failures at the head of the 10 most recent entries (stopped
at the first success) is below 3.  In particular it returns false when
the most recent attempt failed less than 24 hours ago, and false when
that run reaches 3. -/
theorem should_retry_scrape_characterization (log : List LogEntry) (now : Nat) :
    should_retry_scrape log now = true ↔
      log = [] ∨
        ∃ last rest, log = last :: rest ∧
          (last.success = true ∨
            (last.success = false ∧ (24 * 3600 : Int) ≤ (now : Int) - (last.timestamp : Int) ∧
              ((log.take 10).takeWhile (fun e => !e.success)).length < 3)) := by
  cases log with
  | nil => simp [should_retry_scrape]
  | cons last rest =>
    rw [should_retry_scrape]
    by_cases hs : last.success = true
    · simp only [hs, if_true]
      constructor
      · intro _
        exact Or.inr ⟨last, rest, rfl, Or.inl hs⟩
      · intro _; trivial
    · simp only [Bool.not_eq_true] at hs
      rw [hs]
      simp only [Bool.false_eq_true, if_false]
      by_cases ht : (now : Int) - (last.timestamp : Int) < 24 * 3600
      · rw [if_pos ht]
        constructor
        · intro h; exact absurd h (by simp)
        · rintro (h | ⟨l', r', heq, hcase⟩)
          · exact absurd h (by simp)
          · injection heq with h1 h2
            subst h1; subst h2
            rcases hcase with h1 | ⟨_, h2, _⟩
            · rw [hs] at h1; exact absurd h1 (by simp)
            · omega
      · rw [if_neg ht]
        rw [consecutive_failures_eq_takeWhile]
        constructor
        · intro h
          refine Or.inr ⟨last, rest, rfl, Or.inr ⟨hs, by omega, ?_⟩⟩
          simpa using h
        · rintro (h | ⟨l', r', heq, hcase⟩)
          · exact absurd h (by simp)
          · injection heq with h1 h2
            subst h1; subst h2
            rcases hcase with h1 | ⟨_, _, h3⟩
            · rw [hs] at h1; exact absurd h1 (by simp)
            · simpa using h3

/-- Properties of a left fold by `max`: the result bounds the seed and
every element, and is the seed or an element. -/
theorem foldl_max_spec (l : List Nat) : ∀ a : Nat,
    a ≤ l.foldl max a ∧ (∀ x ∈ l, x ≤ l.foldl max a) ∧
      (l.foldl max a = a ∨ l.foldl max a ∈ l) := by
  induction l with
  | nil => intro a; exact ⟨le_refl a, by simp, Or.inl rfl⟩
  | cons b t ih =>
    intro a
    have hstep : (b :: t).foldl max a = t.foldl max (max a b) := rfl
    obtain ⟨h1, h2, h3⟩ := ih (max a b)
    refine ⟨?_, ?_, ?_⟩
    · rw [hstep]; exact le_trans (le_max_left a b) h1
    · rw [hstep]
      intro x hx
      rcases List.mem_cons.mp hx with rfl | hx'
      · exact le_trans (le_max_right a x) h1
      · exact h2 x hx'
    · rw [hstep]
      rcases h3 with heq | hmem
      · rcases max_choice a b with hab | hab
        · exact Or.inl (heq.trans hab)
        · exact Or.inr (List.mem_cons.mpr (Or.inl (heq.trans hab)))
      · exact Or.inr (List.mem_cons.mpr (Or.inr hmem))

/-- C6: `can_update` returns true iff no prior sample exists, or a sample
of maximal timestamp (the most recent one) is at least
`throttleHours` hours in the past relative to the current time. -/
theorem can_update_characterization (store : List Sample) (now : Nat) (throttleHours : Nat) :
    can_update store now throttleHours = true ↔
      store = [] ∨
        ∃ s, s ∈ store ∧ (∀ s', s' ∈ store → s'.timestamp ≤ s.timestamp) ∧
          (throttleHours : Int) * 3600 ≤ (now : Int) - (s.timestamp : Int) := by
  cases store with
  | nil => simp [can_update, get_last_fetched]
  | cons s0 rest =>
    rw [can_update, get_last_fetched]
    set m := (rest.map Sample.timestamp).foldl max s0.timestamp with hm
    obtain ⟨h1, h2, h3⟩ := foldl_max_spec (rest.map Sample.timestamp) s0.timestamp
    rw [← hm] at h1 h2 h3
    have hub : ∀ s', s' ∈ s0 :: rest → s'.timestamp ≤ m := by
      intro s' hs'
      rcases List.mem_cons.mp hs' with rfl | hs''
      · exact h1
      · exact h2 _ (List.mem_map_of_mem Sample.timestamp hs'')
    have hwit : ∃ s, s ∈ s0 :: rest ∧ s.timestamp = m := by
      rcases h3 with heq | hmem
      · exact ⟨s0, List.mem_cons_self _ _, heq.symm⟩
      · obtain ⟨s', hs', hts⟩ := List.mem_map.mp hmem
        exact ⟨s', List.mem_cons.mpr (Or.inr hs'), hts⟩
    simp only [decide_eq_true_eq]
    constructor
    · intro hth
      obtain ⟨s, hs, hts⟩ := hwit
      refine Or.inr ⟨s, hs, ?_, ?_⟩
      · intro s' hs'; rw [hts]; exact hub s' hs'
      · rw [hts]; exact hth
    · rintro (hnil | ⟨s, hs, hmax, hth⟩)
      · exact absurd hnil (by simp)
      · have h1' : s.timestamp ≤ m := hub s hs
        have h2' : m ≤ s.timestamp := by
          obtain ⟨s', hs', hts⟩ := hwit
          rw [← hts]; exact hmax s' hs'
        have : m = s.timestamp := le_antisymm h2' h1'
        rw [this]; exact hth

/-- C7: the renderer's y map is the linear map of `[min_value, max_value]`
onto `[height*0.9, height*0.1]` (10% top and bottom padding, inverted
axis), collapsing to `height/2` when the value range is zero; its x map is
the linear map of `[min_date, max_date]` onto `[0, width]`, collapsing to
`width/2` when the date range is zero. -/
theorem coordinate_mapping_linear (h w : ℚ) (minV maxV v : ℚ) (minD maxD d : Nat) :
    (minV ≠ maxV →
      value_to_y h minV maxV v =
        (9 / 10) * h + ((v - minV) / (maxV - minV)) * ((1 / 10) * h - (9 / 10) * h)) ∧
    (minV ≠ maxV → value_to_y h minV maxV minV = (9 / 10) * h) ∧
    (minV ≠ maxV → value_to_y h minV maxV maxV = (1 / 10) * h) ∧
    (minV = maxV → value_to_y h minV maxV v = h / 2) ∧
    (minD ≠ maxD →
      date_to_x w minD ((maxD : Int) - (minD : Int)) d =
        (((d : Int) - (minD : Int) : Int) : ℚ) / (((maxD : Int) - (minD : Int) : Int) : ℚ) * w) ∧
    (minD ≠ maxD → date_to_x w minD ((maxD : Int) - (minD : Int)) minD = 0) ∧
    (minD ≠ maxD → date_to_x w minD ((maxD : Int) - (minD : Int)) maxD = w) ∧
    (maxD = minD → date_to_x w minD ((maxD : Int) - (minD : Int)) d = w / 2) := by
  have hsub : ∀ hne : minV ≠ maxV, (maxV - minV) ≠ 0 := fun hne => sub_ne_zero.mpr (Ne.symm hne)
  have hdr : ∀ hne : minD ≠ maxD, ((maxD : Int) - (minD : Int)) ≠ 0 := by
    intro hne
    omega
  refine ⟨?_, ?_, ?_, ?_, ?_, ?_, ?_, ?_⟩
  · intro hne
    rw [value_to_y, if_neg (fun he => hne he.symm)]
    ring_nf
  · intro hne
    rw [value_to_y, if_neg (fun he => hne he.symm)]
    simp only [sub_self, zero_div, zero_mul]
    ring_nf
  · intro hne
    rw [value_to_y, if_neg (fun he => hne he.symm)]
    rw [div_self (hsub hne)]
    ring_nf
  · intro he
    rw [value_to_y, if_pos he.symm]
  · intro hne
    rw [date_to_x, if_neg (hdr hne)]
  · intro hne
    rw [date_to_x, if_neg (hdr hne)]
    simp
  · intro hne
    rw [date_to_x, if_neg (hdr hne)]
    rw [div_self (by exact_mod_cast hdr hne)]
    ring
  · intro he
    rw [date_to_x, if_pos (by omega)]

/-- The dotted (bridge) segments the loop accumulates are exactly one per
consecutive pair with day gap above 1, each running from the earlier
point to the step point at the later x-position and the earlier y. -/
theorem segLoop_dotted (toX : Nat → ℚ) (toY : Int → ℚ) :
    ∀ (rest : List (Nat × Int)) (prev : Nat × Int) (st : SegState),
      (segLoop toX toY prev rest st).dotted =
        st.dotted ++ (consecPairs (prev :: rest)).filterMap
          (fun pr => if (pr.2.1 : Int) - (pr.1.1 : Int) > 1 then
            some [(toX pr.1.1, toY pr.1.2), (toX pr.2.1, toY pr.1.2)] else none) := by
  intro rest
  induction rest with
  | nil => intro prev st; simp [segLoop, consecPairs]
  | cons p ps ih =>
    intro prev st
    have hcp : consecPairs (prev :: p :: ps) = (prev, p) :: consecPairs (p :: ps) := rfl
    rw [segLoop, hcp]
    by_cases hgap : ((p.1 : Int) - (prev.1 : Int)) > 1
    · rw [ih]
      simp only [segStep, if_pos hgap, List.filterMap_cons, if_pos hgap]
      simp [List.append_assoc]
    · rw [ih]
      simp only [segStep, if_neg hgap, List.filterMap_cons, if_neg hgap]

/-- The current solid segment never becomes empty once non-empty. -/
theorem segLoop_cur_ne_nil (toX : Nat → ℚ) (toY : Int → ℚ) :
    ∀ (rest : List (Nat × Int)) (prev : Nat × Int) (st : SegState),
      st.cur ≠ [] → (segLoop toX toY prev rest st).cur ≠ [] := by
  intro rest
  induction rest with
  | nil => intro prev st h; exact h
  | cons p ps ih =>
    intro prev st h
    rw [segLoop]
    apply ih
    by_cases hgap : ((p.1 : Int) - (prev.1 : Int)) > 1
    · simp [segStep, if_pos hgap]
    · simp [segStep, if_neg hgap]

/-- The solid segments the loop accumulates (with the final one flushed)
are exactly the maximal runs split at day gaps above 1, mapped to pixel
points. -/
theorem segLoop_solids (toX : Nat → ℚ) (toY : Int → ℚ) :
    ∀ (rest : List (Nat × Int)) (prev : Nat × Int) (st : SegState) (curDom : List (Nat × Int)),
      st.cur = curDom.map (fun p => (toX p.1, toY p.2)) →
      curDom ≠ [] →
      (segLoop toX toY prev rest st).solids ++ [(segLoop toX toY prev rest st).cur] =
        st.solids ++ (splitRunsGo prev curDom rest).map (List.map (fun p => (toX p.1, toY p.2))) := by
  intro rest
  induction rest with
  | nil =>
    intro prev st curDom hst _
    rw [segLoop, splitRunsGo, hst]
    rfl
  | cons p ps ih =>
    intro prev st curDom hst hne
    have hcurne : st.cur ≠ [] := by
      rw [hst]
      simpa using hne
    have hcurempty : st.cur.isEmpty = false := by
      cases hcur : st.cur with
      | nil => exact absurd hcur hcurne
      | cons a b => rfl
    rw [segLoop, splitRunsGo]
    by_cases hgap : ((p.1 : Int) - (prev.1 : Int)) > 1
    · rw [if_pos hgap]
      have hst' : (segStep toX toY prev p st).cur = [p].map (fun q => (toX q.1, toY q.2)) := by
        simp [segStep, if_pos hgap]
      rw [ih p (segStep toX toY prev p st) [p] hst' (by simp)]
      have hsolids : (segStep toX toY prev p st).solids = st.solids ++ [st.cur] := by
        simp [segStep, if_pos hgap, hcurempty]
      rw [hsolids, hst]
      simp [List.append_assoc]
    · rw [if_neg hgap]
      have hst' : (segStep toX toY prev p st).cur =
          (curDom ++ [p]).map (fun q => (toX q.1, toY q.2)) := by
        simp [segStep, if_neg hgap, hst]
      have hsolids : (segStep toX toY prev p st).solids = st.solids := by
        simp [segStep, if_neg hgap]
      rw [ih p (segStep toX toY prev p st) (curDom ++ [p]) hst' (by simp), hsolids]

/-- C4: for each consecutive pair of daily points with date gap above one
day the segment builder emits exactly one bridge segment, from the
earlier point's coordinates to the synthetic step point at the later
point's x-position held at the earlier point's y-value, and the solid
segments are exactly the maximal runs split at those gaps (so a new
solid run starts at the later point, and gap-1 pairs stay in the same
run); bridge segments render as dashed polylines. -/
theorem bridge_and_run_segmentation (daily : List (Nat × Int)) (toX : Nat → ℚ) (toY : Int → ℚ) :
    (build_segments toX toY daily).2.1 =
      (consecPairs daily).filterMap
        (fun pr => if (pr.2.1 : Int) - (pr.1.1 : Int) > 1 then
          some [(toX pr.1.1, toY pr.1.2), (toX pr.2.1, toY pr.1.2)] else none) ∧
    (build_segments toX toY daily).1 =
      (splitRuns daily).map (List.map (fun p => (toX p.1, toY p.2))) ∧
    (∀ color seg, polyline_dotted color seg =
      "<polyline points=\"" ++ points_str seg ++ "\" fill=\"none\" stroke=\"" ++ color ++
        "\" stroke-width=\"2\" stroke-dasharray=\"4,4\" stroke-linecap=\"round\" stroke-linejoin=\"round\" />") := by
  refine ⟨?_, ?_, fun color seg => rfl⟩
  · cases daily with
    | nil => simp [build_segments, consecPairs]
    | cons d0 rest =>
      rw [build_segments]
      simp only
      rw [segLoop_dotted]
      simp
  · cases daily with
    | nil => simp [build_segments, splitRuns]
    | cons d0 rest =>
      rw [build_segments, splitRuns]
      simp only
      have hne : (segLoop toX toY d0 rest
          ⟨[], [], [(toX d0.1, toY d0.2)], [(toX d0.1, toY d0.2)]⟩).cur ≠ [] := by
        apply segLoop_cur_ne_nil
        simp
      have hempty : (segLoop toX toY d0 rest
          ⟨[], [], [(toX d0.1, toY d0.2)], [(toX d0.1, toY d0.2)]⟩).cur.isEmpty = false := by
        cases hcur : (segLoop toX toY d0 rest
            ⟨[], [], [(toX d0.1, toY d0.2)], [(toX d0.1, toY d0.2)]⟩).cur with
        | nil => exact absurd hcur hne
        | cons a b => rfl
      rw [hempty]
      simp only [Bool.false_eq_true, if_false]
      have := segLoop_solids toX toY rest d0
        ⟨[], [], [(toX d0.1, toY d0.2)], [(toX d0.1, toY d0.2)]⟩ [d0] (by simp) (by simp)
      simpa using this

/-- On a list of proper row dicts the daily-reduction loop never raises:
it computes the pure reduction. -/
theorem reduce_daily_records_eq :
    ∀ (samples : List Sample) (daily : List (Nat × Int)) (prevDate : Option Nat),
      reduce_daily_go daily prevDate (samples.map sampleToItem) =
        Except.ok (reduce_daily_records_go daily prevDate samples) := by
  intro samples
  induction samples with
  | nil => intro daily prev; rfl
  | cons s rest ih =>
    intro daily prev
    rw [List.map_cons, reduce_daily_go, reduce_daily_records_go]
    simp only [sampleToItem, toRecord]
    by_cases hd : prev = some (dateOf s.timestamp)
    · rw [if_pos hd, if_pos hd, ih]
    · rw [if_neg hd, if_neg hd, ih]

/-- Day numbers are monotone in timestamps. -/
theorem dateOf_mono {a b : Nat} (h : a ≤ b) : dateOf a ≤ dateOf b :=
  Nat.div_le_div_right h

/-- Invariant of the daily-reduction loop on timestamp-sorted input: the
accumulated daily dates stay strictly increasing, and every emitted point
is either an untouched accumulator entry whose date never recurs, or
carries the value of a maximal-timestamp sample of its date. -/
theorem reduce_records_go_spec :
    ∀ (rest : List Sample) (daily : List (Nat × Int)) (prevDate : Option Nat),
      List.Pairwise (fun a b : Sample => a.timestamp ≤ b.timestamp) rest →
      (∀ p, prevDate = some p → ∀ s ∈ rest, p ≤ dateOf s.timestamp) →
      prevDate = daily.getLast?.map Prod.fst →
      List.Pairwise (fun a b : Nat × Int => a.1 < b.1) daily →
      List.Pairwise (fun a b : Nat × Int => a.1 < b.1)
          (reduce_daily_records_go daily prevDate rest) ∧
      ∀ d v, (d, v) ∈ reduce_daily_records_go daily prevDate rest →
        ((d, v) ∈ daily ∧ ∀ s ∈ rest, dateOf s.timestamp ≠ d) ∨
        (∃ s, s ∈ rest ∧ dateOf s.timestamp = d ∧ s.count = v ∧
          ∀ s', s' ∈ rest → dateOf s'.timestamp = d → s'.timestamp ≤ s.timestamp) := by
  intro rest
  induction rest with
  | nil =>
    intro daily prevDate _ _ _ hchain
    refine ⟨hchain, fun d v hmem => Or.inl ⟨hmem, by simp⟩⟩
  | cons s rest' ih =>
    intro daily prevDate hsorted hprev hlast hchain
    obtain ⟨hhead, htail⟩ := List.pairwise_cons.mp hsorted
    have htailprev : ∀ s' ∈ rest', dateOf s.timestamp ≤ dateOf s'.timestamp :=
      fun s' h => dateOf_mono (hhead s' h)
    rw [reduce_daily_records_go]
    by_cases hd : prevDate = some (dateOf s.timestamp)
    · -- same day: replace the last daily point
      rw [if_pos hd]
      have hsome : daily.getLast?.map Prod.fst = some (dateOf s.timestamp) := by
        rw [← hlast]; exact hd
      obtain ⟨lastP, hgl, hfst⟩ := Option.map_eq_some'.mp hsome
      rcases List.eq_nil_or_concat daily with hnil | ⟨ys, a, hconcat⟩
      · rw [hnil] at hgl; exact absurd hgl (by simp)
      · rw [List.concat_eq_append] at hconcat
        subst hconcat
        rw [List.getLast?_concat] at hgl
        injection hgl with hgl'
        subst hgl'
        rw [List.dropLast_concat]
        have hcross : ∀ x ∈ ys, x.1 < a.1 := by
          intro x hx
          exact (List.pairwise_append.mp hchain).2.2 x hx a (by simp)
        have hchain' :
            List.Pairwise (fun a b : Nat × Int => a.1 < b.1)
              (ys ++ [(dateOf s.timestamp, s.count)]) := by
          rw [List.pairwise_append]
          refine ⟨(List.pairwise_append.mp hchain).1, by simp, ?_⟩
          intro x hx b hb
          rw [List.mem_singleton] at hb
          subst hb
          calc x.1 < a.1 := hcross x hx
            _ = dateOf s.timestamp := hfst
        have hprev' : ∀ p, prevDate = some p → ∀ s'' ∈ rest', p ≤ dateOf s''.timestamp := by
          intro p hp s'' hs''
          rw [hd] at hp
          injection hp with hp'
          subst hp'
          exact htailprev s'' hs''
        have hlast' : prevDate = (ys ++ [(dateOf s.timestamp, s.count)]).getLast?.map Prod.fst := by
          rw [List.getLast?_concat, hd]
          rfl
        obtain ⟨ihchain, ihmem⟩ :=
          ih (ys ++ [(dateOf s.timestamp, s.count)]) prevDate htail hprev' hlast' hchain'
        refine ⟨ihchain, ?_⟩
        intro d v hmem
        rcases ihmem d v hmem with ⟨hin, hnodate⟩ | ⟨s1, hs1, h1, h2, h3⟩
        · rcases List.mem_append.mp hin with hys | hlastmem
          · refine Or.inl ⟨List.mem_append_left _ hys, ?_⟩
            intro s'' hs''
            rcases List.mem_cons.mp hs'' with rfl | hs'''
            · have hlt : d < a.1 := by simpa using hcross _ hys
              rw [hfst] at hlt
              omega
            · exact hnodate s'' hs'''
          · rw [List.mem_singleton] at hlastmem
            injection hlastmem with he1 he2
            refine Or.inr ⟨s, List.mem_cons_self _ _, he1.symm, he2.symm, ?_⟩
            intro s'' hs'' hdate
            rcases List.mem_cons.mp hs'' with rfl | hs'''
            · exact le_refl _
            · exact absurd hdate (hnodate s'' hs''')
        · refine Or.inr ⟨s1, List.mem_cons.mpr (Or.inr hs1), h1, h2, ?_⟩
          intro s'' hs'' hdate
          rcases List.mem_cons.mp hs'' with rfl | hs'''
          · exact hhead s1 hs1
          · exact h3 s'' hs''' hdate
    · -- new day: append a daily point
      rw [if_neg hd]
      have hcrossall : ∀ x ∈ daily, x.1 < dateOf s.timestamp := by
        rcases List.eq_nil_or_concat daily with hnil | ⟨ys, a, hconcat⟩
        · rw [hnil]; simp
        · rw [List.concat_eq_append] at hconcat
          subst hconcat
          have hpa : prevDate = some a.1 := by
            rw [hlast, List.getLast?_concat]; rfl
          have hle : a.1 ≤ dateOf s.timestamp :=
            hprev a.1 hpa s (List.mem_cons_self _ _)
          have hne : a.1 ≠ dateOf s.timestamp := by
            intro he
            rw [← he] at hd
            exact hd hpa
          have hlt : a.1 < dateOf s.timestamp := lt_of_le_of_ne hle hne
          intro x hx
          rcases List.mem_append.mp hx with hys | hax
          · calc x.1 < a.1 := (List.pairwise_append.mp hchain).2.2 x hys a (by simp)
              _ < dateOf s.timestamp := hlt
          · rw [List.mem_singleton] at hax
            subst hax
            exact hlt
      have hchain' :
          List.Pairwise (fun a b : Nat × Int => a.1 < b.1)
            (daily ++ [(dateOf s.timestamp, s.count)]) := by
        rw [List.pairwise_append]
        refine ⟨hchain, by simp, ?_⟩
        intro x hx b hb
        rw [List.mem_singleton] at hb
        subst hb
        exact hcrossall x hx
      have hprev' : ∀ p, some (dateOf s.timestamp) = some p →
          ∀ s'' ∈ rest', p ≤ dateOf s''.timestamp := by
        intro p hp s'' hs''
        injection hp with hp'
        subst hp'
        exact htailprev s'' hs''
      have hlast' : some (dateOf s.timestamp) =
          (daily ++ [(dateOf s.timestamp, s.count)]).getLast?.map Prod.fst := by
        rw [List.getLast?_concat]
        rfl
      obtain ⟨ihchain, ihmem⟩ :=
        ih (daily ++ [(dateOf s.timestamp, s.count)]) (some (dateOf s.timestamp))
          htail hprev' hlast' hchain'
      refine ⟨ihchain, ?_⟩
      intro d v hmem
      rcases ihmem d v hmem with ⟨hin, hnodate⟩ | ⟨s1, hs1, h1, h2, h3⟩
      · rcases List.mem_append.mp hin with hys | hlastmem
        · refine Or.inl ⟨hys, ?_⟩
          intro s'' hs''
          rcases List.mem_cons.mp hs'' with rfl | hs'''
          · have hlt : d < dateOf s''.timestamp := by simpa using hcrossall _ hys
            omega
          · exact hnodate s'' hs'''
        · rw [List.mem_singleton] at hlastmem
          injection hlastmem with he1 he2
          refine Or.inr ⟨s, List.mem_cons_self _ _, he1.symm, he2.symm, ?_⟩
          intro s'' hs'' hdate
          rcases List.mem_cons.mp hs'' with rfl | hs'''
          · exact le_refl _
          · exact absurd hdate (hnodate s'' hs''')
      · refine Or.inr ⟨s1, List.mem_cons.mpr (Or.inr hs1), h1, h2, ?_⟩
        intro s'' hs'' hdate
        rcases List.mem_cons.mp hs'' with rfl | hs'''
        · exact hhead s1 hs1
        · exact h3 s'' hs''' hdate

/-- C3: on a history of proper rows sorted by timestamp ascending, the
daily reduction raises nothing and produces at most one point per
distinct calendar date (its dates are pairwise distinct), and every
emitted point carries the value of a sample of its date whose timestamp
is maximal among that date's samples (latest wins). -/
theorem reduce_daily_one_point_per_day_latest_wins (samples : List Sample)
    (hsorted : List.Pairwise (fun a b : Sample => a.timestamp ≤ b.timestamp) samples) :
    ∃ daily, reduce_daily (samples.map sampleToItem) = Except.ok daily ∧
      (daily.map Prod.fst).Nodup ∧
      ∀ d v, (d, v) ∈ daily →
        ∃ s, s ∈ samples ∧ dateOf s.timestamp = d ∧ s.count = v ∧
          ∀ s', s' ∈ samples → dateOf s'.timestamp = d → s'.timestamp ≤ s.timestamp := by
  obtain ⟨hchain, hmem⟩ :=
    reduce_records_go_spec samples [] none hsorted (by simp) (by simp) (by simp)
  refine ⟨reduce_daily_records samples, ?_, ?_, ?_⟩
  · rw [reduce_daily, reduce_daily_records_eq]
    rfl
  · have hlt : List.Pairwise (· < ·) ((reduce_daily_records samples).map Prod.fst) :=
      List.pairwise_map.mpr hchain
    exact hlt.imp Nat.ne_of_lt
  · intro d v hm
    rcases hmem d v hm with ⟨hin, _⟩ | ⟨s, hs, h1, h2, h3⟩
    · exact absurd hin (List.not_mem_nil _)
    · exact ⟨s, hs, h1, h2, h3⟩

/-- C3 witness: the theorem applied to the three-sample history with two
samples on day 0 (timestamps 0 and 10) and one on day 1. -/
theorem reduce_daily_one_point_per_day_latest_wins_witness :
    ∃ daily,
      reduce_daily (([⟨0, 5⟩, ⟨10, 7⟩, ⟨90000, 9⟩] : List Sample).map sampleToItem) =
        Except.ok daily ∧
      (daily.map Prod.fst).Nodup ∧
      ∀ d v, (d, v) ∈ daily →
        ∃ s, s ∈ ([⟨0, 5⟩, ⟨10, 7⟩, ⟨90000, 9⟩] : List Sample) ∧
          dateOf s.timestamp = d ∧ s.count = v ∧
          ∀ s', s' ∈ ([⟨0, 5⟩, ⟨10, 7⟩, ⟨90000, 9⟩] : List Sample) →
            dateOf s'.timestamp = d → s'.timestamp ≤ s.timestamp :=
  reduce_daily_one_point_per_day_latest_wins [⟨0, 5⟩, ⟨10, 7⟩, ⟨90000, 9⟩] (by decide)
